import Mathlib

set_option maxRecDepth 10000

/-!
Shallow embedding of the fix_build_agent repository core
(`src/agent.py`, `src/agent_tools.py`,
`src/generated_prompt_file/agent_tools.py`, `src/workflow_loop_agent.py`).

Strings are embedded as `List Char`; the Python string operations used by
the source (`in`, `str.replace(old, new, 1)`, `split`, `strip`,
`splitlines`, `join`, `lower`) are reproduced as executable functions on
`List Char` with Python's semantics.
-/

namespace FixBuildAgent

/-- Embedded Python strings: a string is its list of characters. -/
abbrev Str := List Char

/-- Coerce a Lean string literal into the embedded representation. -/
def strL (s : String) : Str := s.toList

/-- Python `str.lower()` (ASCII case folding, which is all the source needs:
every keyword scanned for by the source is ASCII). -/
def pyLower (s : Str) : Str := s.map Char.toLower

/-- Python `sub in s`: substring containment test. -/
def containsSub (sub : Str) : Str → Bool
  | [] => sub.isPrefixOf []
  | c :: rest => sub.isPrefixOf (c :: rest) || containsSub sub rest

/-- Python `s.replace(pat, repl, 1)`: replace the first (leftmost)
occurrence of `pat` by `repl`, leaving everything else unchanged. -/
def pyReplaceFirst (pat repl : Str) : Str → Str
  | [] => if pat.isPrefixOf ([] : Str) then repl ++ [] else []
  | c :: rest =>
    if pat.isPrefixOf (c :: rest) then repl ++ (c :: rest).drop pat.length
    else c :: pyReplaceFirst pat repl rest

/-- Split a string at the first occurrence of `sep`, returning the parts
before and after the separator, or `none` when `sep` does not occur. -/
def splitOnce (sep : Str) : Str → Option (Str × Str)
  | [] => none
  | c :: rest =>
    if sep.isPrefixOf (c :: rest) then some ([], (c :: rest).drop sep.length)
    else (splitOnce sep rest).map (fun p => (c :: p.1, p.2))

/-- Fuel-driven worker for `pySplit`. -/
def pySplitAux (sep : Str) : Nat → Str → List Str
  | 0, s => [s]
  | fuel + 1, s =>
    match splitOnce sep s with
    | none => [s]
    | some (pre, post) => pre :: pySplitAux sep fuel post

/-- Python `s.split(sep)` for a non-empty separator: the list of chunks
between consecutive occurrences of `sep`. -/
def pySplit (sep s : Str) : List Str := pySplitAux sep (s.length + 1) s

/-- Python whitespace as recognised by `str.strip()` on ASCII text. -/
def pyIsSpace (c : Char) : Bool :=
  c = ' ' || c = '\t' || c = '\n' || c = '\r' || c = '\x0b' || c = '\x0c'

/-- Drop the longest suffix whose characters satisfy `p`. -/
def dropEndWhile (p : Char → Bool) (s : Str) : Str :=
  (s.reverse.dropWhile p).reverse

/-- Python `s.strip()`. -/
def pyStrip (s : Str) : Str := dropEndWhile pyIsSpace (s.dropWhile pyIsSpace)

/-- Python `s.strip(chars)`: strip the given characters from both ends. -/
def pyStripChars (cs : List Char) (s : Str) : Str :=
  dropEndWhile (fun c => cs.contains c) (s.dropWhile (fun c => cs.contains c))

/-- Worker for `pySplitlines`, accumulating the current line reversed. -/
def pySplitlinesAux : Str → Str → List Str
  | [], acc => if acc.isEmpty then [] else [acc.reverse]
  | '\r' :: '\n' :: rest, acc => acc.reverse :: pySplitlinesAux rest []
  | '\r' :: rest, acc => acc.reverse :: pySplitlinesAux rest []
  | '\n' :: rest, acc => acc.reverse :: pySplitlinesAux rest []
  | c :: rest, acc => pySplitlinesAux rest (c :: acc)

/-- Python `s.splitlines()` over the terminators the source encounters
(`\n`, `\r`, `\r\n`); the empty string yields the empty list and a
trailing terminator does not produce a trailing empty line. -/
def pySplitlines (s : Str) : List Str := pySplitlinesAux s []

/-- Python `sep.join(parts)`. -/
def pyJoin (sep : Str) : List Str → Str
  | [] => []
  | [x] => x
  | x :: y :: xs => x ++ sep ++ pyJoin sep (y :: xs)

/-!
Outcome Classifier — `run_fuzz_build_streaming` in
`src/generated_prompt_file/agent_tools.py` (lines 1479–1513) and
identically in `src/agent_tools.py` (lines 1249–1283): after the build
process finishes, the captured log and exit code are folded into a
boolean verdict, and the persisted log file is overwritten with either
the sentinel `"success"` or the full captured log.
-/

/-- The `failure_keywords` list of `run_fuzz_build_streaming`. -/
def failure_keywords : List Str :=
  [strL "error:", strL "failed:", strL "timeout", strL "timed out",
   strL "build failed", strL "no such package", strL "error loading package",
   strL "failed to fetch"]

/-- The `success_keywords` list of `run_fuzz_build_streaming`. -/
def success_keywords : List Str :=
  [strL "build completed successfully", strL "successfully built"]

/-- True when some failure keyword occurs in the lower-cased log. -/
def failureKeywordPresent (final_log : Str) : Bool :=
  failure_keywords.any (fun k => containsSub k (pyLower final_log))

/-- True when some success keyword occurs in the lower-cased log. -/
def successKeywordPresent (final_log : Str) : Bool :=
  success_keywords.any (fun k => containsSub k (pyLower final_log))

/-- The degenerate-success marker scanned for by the classifier. -/
def degenerateMarker : Str := strL "found 0 targets"

/-- The verdict computation of `run_fuzz_build_streaming`: start from
`true`, force `false` on a non-zero exit code, force `false` when any
failure keyword occurs in the lower-cased log, and finally — only when
still provisionally successful and no success keyword occurs — force
`false` when the log contains `"found 0 targets"`. -/
def isTrulySuccessful (final_log : Str) (return_code : Int) : Bool :=
  let s0 := true
  let s1 := if return_code ≠ 0 then false else s0
  let s2 := if failureKeywordPresent final_log then false else s1
  if s2 then
    if ¬ successKeywordPresent final_log then
      if containsSub degenerateMarker (pyLower final_log) then false else s2
    else s2
  else s2

/-- Content written to the persisted build-log file by
`run_fuzz_build_streaming`: the sentinel `"success"` on a successful
verdict, the full captured log otherwise. -/
def logFileContent (final_log : Str) (return_code : Int) : Str :=
  if isTrulySuccessful final_log return_code then strL "success" else final_log

/-- The success check of `workflow_loop_agent` (lines 71–85 of
`src/workflow_loop_agent.py`): read the log file, strip it, lower-case
it and compare with `"success"`. -/
def loopSuccessCheck (log_content : Str) : Bool :=
  pyLower (pyStrip log_content) == strL "success"

/-!
Patch Applier — `apply_patch` in
`src/generated_prompt_file/agent_tools.py` (lines 971–1046), the
feature-complete variant with match-failure feedback that the spec
canonicalises.  The filesystem it reads and writes is embedded as a
partial map from paths to file contents.
-/

/-- A filesystem: a partial map from paths to file contents. -/
def FS := Str → Option Str

/-- Overwrite one file of a filesystem. -/
def updateFS (fs : FS) (path content : Str) : FS :=
  fun q => if q = path then some content else fs q

/-- Block separator literal of the patch-document format. -/
def fileSep : Str := strL "---=== FILE ===---"

/-- ORIGINAL-section separator literal of the patch-document format. -/
def originalSep : Str := strL "---=== ORIGINAL ===---"

/-- REPLACEMENT-section separator literal of the patch-document format. -/
def replacementSep : Str := strL "---=== REPLACEMENT ===---"

/-- Index of the first line of `file_lines` containing `pat` as a
substring (the fuzzy anchor search of `apply_patch`). -/
def findAnchor (pat : Str) : List Str → Option Nat
  | [] => none
  | l :: rest =>
    if containsSub pat l then some 0
    else (findAnchor pat rest).map (· + 1)

/-- Default snippet text when the anchor search finds nothing. -/
def noContextMsg : Str := strL "No similar context found in the target file."

/-- The `context_snippet` computed by `apply_patch` on a match failure:
find the first file line containing the (stripped) first line of the
ORIGINAL block, and join the lines from 3 before to 7 after it
(clamped to the file, end exclusive). -/
def contextSnippet (file_content original_block : Str) : Str :=
  let file_lines := pySplitlines file_content
  let first_line_orig := pyStrip ((pySplitlines original_block).headD [])
  match findAnchor first_line_orig file_lines with
  | none => noContextMsg
  | some i =>
    pyJoin (strL "\n")
      ((file_lines.drop (i - 3)).take (min file_lines.length (i + 7) - (i - 3)))

/-- The match-failure error message of `apply_patch`, embedding the
context snippet between the fixed template pieces. -/
def matchFailMsg (file_path file_content original_block : Str) : Str :=
  strL "Match failed for " ++ file_path ++
  strL ". The ORIGINAL block does not match the file content exactly.\n### ACTUAL CONTENT AROUND TARGET AREA ###\n\x60\x60\x60\n" ++
  contextSnippet file_content original_block ++
  strL "\n\x60\x60\x60\n### END OF ACTUAL CONTENT ###\nPlease use the ACTUAL CONTENT above to correct your ORIGINAL block (check for tabs vs spaces)."

/-- Error message for a block naming a missing file. -/
def fileNotFoundMsg (file_path : Str) : Str :=
  strL "File not found: " ++ file_path

/-- Error message recorded when parsing a block raises (the caught
IndexError of the Python code). -/
def blockErrorMsg (file_path : Str) : Str :=
  strL "Error in block for " ++ file_path ++ strL ": list index out of range"

/-- Application of one parsed block `(file_path, original, replacement)`
to the filesystem: if the file is missing, record an error; if the
ORIGINAL fragment occurs, replace its first occurrence and rewrite the
file; otherwise leave the filesystem untouched and record the
match-failure feedback message.  Returns the new filesystem and
`none` on success or `some msg` on a per-block error. -/
def applyBlockParsed (fs : FS) (file_path original_block replacement_block : Str) :
    FS × Option Str :=
  match fs file_path with
  | none => (fs, some (fileNotFoundMsg file_path))
  | some file_content =>
    if containsSub original_block file_content then
      (updateFS fs file_path (pyReplaceFirst original_block replacement_block file_content),
       none)
    else
      (fs, some (matchFailMsg file_path file_content original_block))

/-- Processing of one raw block chunk: split on the ORIGINAL separator,
take the path from the part before it, split the part after it on the
REPLACEMENT separator, strip the fragments of leading/trailing newline
characters, and apply.  A chunk missing either separator reproduces the
caught IndexError as a recorded per-block error. -/
def processBlock (fs : FS) (block : Str) : FS × Option Str :=
  match pySplit originalSep block with
  | p0 :: p1 :: _ =>
    let file_path := pyStrip p0
    (match pySplit replacementSep p1 with
     | c0 :: c1 :: _ =>
       applyBlockParsed fs file_path
         (pyStripChars (strL "\n\r") c0) (pyStripChars (strL "\n\r") c1)
     | _ => (fs, some (blockErrorMsg file_path)))
  | p0 :: _ => (fs, some (blockErrorMsg (pyStrip p0)))
  | [] => (fs, some (blockErrorMsg []))

/-- Left-to-right fold of `processBlock` over the parsed blocks,
returning the final filesystem, the number of applied blocks and the
list of per-block error messages in order. -/
def processBlocks (fs : FS) : List Str → FS × Nat × List Str
  | [] => (fs, 0, [])
  | b :: bs =>
    let r1 := processBlock fs b
    let r2 := processBlocks r1.1 bs
    match r1.2 with
    | none => (r2.1, r2.2.1 + 1, r2.2.2)
    | some msg => (r2.1, r2.2.1, msg :: r2.2.2)

/-- `content.split('---=== FILE ===---')[1:]` — the parsed block chunks
of a patch document. -/
def parseBlocks (doc : Str) : List Str := (pySplit fileSep doc).drop 1

/-- Result of `apply_patch`: final filesystem, status string (one of
`"success"`, `"partial_success"`, `"error"`, exactly the strings the
Python dict carries), count of applied blocks, and the per-block error
diagnostics embedded in the Python message. -/
structure ApplyOutcome where
  fs : FS
  status : Str
  applied_count : Nat
  errors : List Str

/-- `apply_patch` over a patch document and a filesystem: parse the
blocks, apply each in order, and aggregate — `"error"` when no block
separator was found, `"success"` when no per-block error was recorded,
`"partial_success"` when some block applied and some failed, `"error"`
when zero blocks applied. -/
def apply_patch (fs : FS) (doc : Str) : ApplyOutcome :=
  match parseBlocks doc with
  | [] => ⟨fs, strL "error", 0, []⟩
  | b :: bs =>
    let r := processBlocks fs (b :: bs)
    if r.2.2 = [] then ⟨r.1, strL "success", r.2.1, r.2.2⟩
    else if r.2.1 > 0 then ⟨r.1, strL "partial_success", r.2.1, r.2.2⟩
    else ⟨r.1, strL "error", r.2.1, r.2.2⟩

/-!
Reflection Journal — `update_reflection_journal` in
`src/generated_prompt_file/agent_tools.py` (lines 103–164).  The
persisted JSON history is embedded as the explicit list of entries read
at the start of the call; the function returns the appended history and
the result dict.
-/

/-- One journal record, with the fields the Python dict carries. -/
structure ReflectionEntry where
  attempt_id : Int
  timestamp : Str
  strategy : Str
  deterioration_score : Int
  reflection : Str
  should_rollback : Bool
deriving DecidableEq

/-- The result dict of `update_reflection_journal`. -/
structure JournalResult where
  status : Str
  reflection_summary : Str
  trigger_rollback : Bool
  history_count : Nat
deriving DecidableEq

/-- The consecutive-high-score test: the last two entries of the
appended history both have deterioration score strictly above 7. -/
def lastTwoHighScore (history : List ReflectionEntry) : Bool :=
  match history.reverse with
  | a :: b :: _ =>
    decide (a.deterioration_score > 7) && decide (b.deterioration_score > 7)
  | _ => false

/-- One summary line per recent entry, as formatted by the source. -/
def formatLesson (h : ReflectionEntry) : Str :=
  strL "Attempt " ++ strL (toString h.attempt_id) ++ strL " (Score: " ++
  strL (toString h.deterioration_score) ++ strL "): " ++ h.reflection

/-- `update_reflection_journal`: append the new entry to the history,
compute the rollback trigger as `should_rollback OR (last two entries
both score > 7)`, and build the bounded summary from the 3 most recent
entries. -/
def update_reflection_journal (history : List ReflectionEntry)
    (new_entry : ReflectionEntry) : List ReflectionEntry × JournalResult :=
  let h := history ++ [new_entry]
  let consecutive_high_score := lastTwoHighScore h
  (h,
   { status := strL "success"
     reflection_summary := pyJoin (strL "\n") ((h.drop (h.length - 3)).map formatLesson)
     trigger_rollback := new_entry.should_rollback || consecutive_high_score
     history_count := h.length })

/-!
State Snapshotting — `manage_git_state` in
`src/generated_prompt_file/agent_tools.py` (lines 201–254).  The tool
shells out to git; the git effects are modelled by their documented
semantics: a repository is a linear chain of whole-working-directory
snapshots (commits, oldest first), `git add . && git commit` appends the
current working directory as a snapshot, `git rev-list --count HEAD` is
the chain length, and `git reset --hard <target>` followed by
`git clean -fd` makes the working directory exactly the target snapshot
(tracked files restored, untracked files removed) and discards the
commits after the target.
-/

/-- A working directory: the set of files it holds. -/
structure WorkState where
  files : List (Str × Str)
deriving DecidableEq

/-- The state `manage_git_state` operates on: the checkpoint chain
(`none` when the path is not yet a git repository) and the working
directory. -/
structure GitState where
  repo : Option (List WorkState)
  workdir : WorkState
deriving DecidableEq

/-- The `action` parameter of `manage_git_state`; for `rollback`, the
optional explicit target is an index into the checkpoint chain (the
Python code passes a commit SHA string, empty for the default
`HEAD~1`). -/
inductive GitAction
  | init
  | commit (message : Str)
  | rollback (commit_sha : Option Nat)
deriving DecidableEq

/-- The initialization check at the top of `manage_git_state`: if the
path is not yet a repository, `git init` it and take an initial
checkpoint of the current working directory. -/
def ensureRepo (st : GitState) : GitState :=
  match st.repo with
  | some _ => st
  | none => { st with repo := some [st.workdir] }

/-- `manage_git_state`: dispatch on the action after the initialization
check, returning the new state and the status string of the returned
dict (`"success"` or `"error"`).  A rollback with at most one commit in
the chain returns the `"error"` status without touching anything;
otherwise it restores the target snapshot (default: the immediately
preceding commit `HEAD~1`) and discards later commits and untracked
files. -/
def manage_git_state (st : GitState) (action : GitAction) : GitState × Str :=
  let st1 := ensureRepo st
  match action, st1.repo with
  | _, none => (st1, strL "error")
  | .init, some _ => (st1, strL "success")
  | .commit _, some cs =>
    if cs.getLast? = some st1.workdir then (st1, strL "success")
    else ({ st1 with repo := some (cs ++ [st1.workdir]) }, strL "success")
  | .rollback target, some cs =>
    if cs.length ≤ 1 then (st1, strL "error")
    else
      match target with
      | none =>
        match cs.get? (cs.length - 2) with
        | some snap =>
          ({ repo := some (cs.take (cs.length - 1)), workdir := snap }, strL "success")
        | none => (st1, strL "error")
      | some i =>
        match cs.get? i with
        | some snap =>
          ({ repo := some (cs.take (i + 1)), workdir := snap }, strL "success")
        | none => (st1, strL "error")

/-!
Repair Loop Controller and Batch Driver — `process_single_project`
(lines 327–482) and `main` (lines 483–564) in `src/agent.py`.

`process_single_project` runs `for attempt in range(MAX_RETRIES)` with
`MAX_RETRIES = 10`; at the top of each iteration it breaks once the
2-hour wall clock (`TIMEOUT_LIMIT = 7200` seconds) has elapsed; the
agent run inside the iteration is wrapped in `try/except Exception`
(an exception there is caught, and the loop breaks early only when
`attempt + 1 >= MAX_RETRIES`); a success escalation breaks the loop
with `is_successful = True`.  Statements of the run outside that
`try` (for instance the append-write to `fix-success.txt` performed
when the run succeeded) are not covered by any handler, and `main`
wraps the per-project call in no `try` either: an exception raised
there propagates and aborts the whole batch.
-/

/-- How one loop iteration's agent run ends: a success escalation, a
completed run without escalation, or an exception caught by the
per-attempt `except Exception` handler. -/
inductive AttemptOutcome
  | success
  | failure
  | raised
deriving DecidableEq

/-- Environment of one project's run: the wall clock observed at the
top of each iteration, the outcome of each iteration's agent run, and
whether the success-report file write after the loop (a statement
outside every `try`) raises. -/
structure ProjectOracle where
  elapsed : Nat → Nat
  outcome : Nat → AttemptOutcome
  reportRaises : Bool

/-- `MAX_RETRIES` of `src/agent.py` (line 133). -/
def MAX_RETRIES : Nat := 10

/-- `TIMEOUT_LIMIT` of `process_single_project`: 7200 seconds. -/
def TIMEOUT_LIMIT : Nat := 7200

/-- The attempt loop of `process_single_project`, returning the final
`is_successful` flag and the number of iterations whose body was
entered.  `fuel` is the number of remaining `range(MAX_RETRIES)`
indices, `attempt` the current index. -/
def runAttempts (o : ProjectOracle) : Nat → Nat → Bool × Nat
  | 0, _ => (false, 0)
  | fuel + 1, attempt =>
    if o.elapsed attempt > TIMEOUT_LIMIT then (false, 0)
    else
      match o.outcome attempt with
      | .success => (true, 1)
      | .failure =>
        let r := runAttempts o fuel (attempt + 1)
        (r.1, r.2 + 1)
      | .raised =>
        if MAX_RETRIES ≤ attempt + 1 then (false, 1)
        else
          let r := runAttempts o fuel (attempt + 1)
          (r.1, r.2 + 1)

/-- `process_single_project`: run the bounded attempt loop, then write
the success report; the report write is outside every handler, so when
it raises the exception propagates to the caller (`Except.error`).
Otherwise the function returns the `is_successful` flag. -/
def process_single_project (o : ProjectOracle) : Except Unit Bool :=
  let r := runAttempts o MAX_RETRIES 0
  if r.1 && o.reportRaises then Except.error () else Except.ok r.1

/-- The result string recorded back to the manifest by `main` for one
project. -/
def recordStatus (b : Bool) : Str := if b then strL "Success" else strL "Failure"

/-- The per-project loop of `main`: process each project in manifest
order and record its result status; there is no exception handler at
the project boundary, so an exception escaping
`process_single_project` aborts the batch — nothing is recorded for
that project or any later one.  Returns the list of recorded result
statuses. -/
def mainBatch : List ProjectOracle → List Str
  | [] => []
  | p :: rest =>
    match process_single_project p with
    | Except.ok b => recordStatus b :: mainBatch rest
    | Except.error _ => []

/-!
Concrete inputs used to instantiate the theorems below on closed data.
-/

/-- A filesystem holding exactly one file. -/
def singleFS (path content : Str) : FS :=
  fun q => if q = path then some content else none

/-- A journal entry with the given score and rollback flag. -/
def demoEntry (score : Int) (rb : Bool) : ReflectionEntry :=
  ⟨1, [], [], score, [], rb⟩

/-- A one-file working-directory snapshot whose content is `n`. -/
def demoSnap (n : Nat) : WorkState := ⟨[(strL "file", strL (toString n))]⟩

/-- A checkpoint store holding only the initial checkpoint. -/
def oneCommitRepo : GitState := ⟨some [demoSnap 0], demoSnap 0⟩

/-- A checkpoint store with two checkpoints whose working directory
additionally holds an untracked file. -/
def twoCommitRepo : GitState :=
  ⟨some [demoSnap 0, demoSnap 1],
   ⟨[(strL "file", strL "1"), (strL "junk", strL "u")]⟩⟩

/-- A project whose build attempt never succeeds and never raises. -/
def allFailProject : ProjectOracle :=
  ⟨fun _ => 0, fun _ => AttemptOutcome.failure, false⟩

/-- A project whose agent run raises inside the caught region on every
attempt. -/
def caughtRaiseProject : ProjectOracle :=
  ⟨fun _ => 0, fun _ => AttemptOutcome.raised, false⟩

/-- A project that succeeds but whose success-report write (outside
every handler) raises. -/
def raisingReportProject : ProjectOracle :=
  ⟨fun _ => 0, fun _ => AttemptOutcome.success, true⟩

/-- A well-behaved successful project. -/
def plainSuccessProject : ProjectOracle :=
  ⟨fun _ => 0, fun _ => AttemptOutcome.success, false⟩

end FixBuildAgent

namespace FixBuildAgent

/-!
Helper lemmas shared by the claim theorems.
-/

/-- A pattern occurs in any string that carries it in the middle. -/
theorem containsSub_middle (pat pre suf : Str) :
    containsSub pat (pre ++ pat ++ suf) = true := by
  induction pre with
  | nil =>
    cases hps : pat ++ suf with
    | nil => simp_all [containsSub, List.isPrefixOf_iff_prefix]
    | cons c rest =>
      have : pat.isPrefixOf (pat ++ suf) = true :=
        List.isPrefixOf_iff_prefix.mpr (List.prefix_append _ _)
      simp only [List.nil_append] at *
      rw [hps] at this
      simp [containsSub, hps, this]
  | cons c pre' ih =>
    simp only [List.cons_append, containsSub, Bool.or_eq_true]
    exact Or.inr ih

/-- `pyReplaceFirst` when the pattern is a prefix of the string. -/
theorem pyReplaceFirst_of_isPrefixOf (pat repl s : Str)
    (h : pat.isPrefixOf s = true) :
    pyReplaceFirst pat repl s = repl ++ s.drop pat.length := by
  cases s with
  | nil => simp [pyReplaceFirst, h]
  | cons c rest => simp [pyReplaceFirst, h]

/-- `pyReplaceFirst` rewrites exactly the first occurrence: given a
decomposition whose prefix contains no earlier occurrence of the
pattern, the result is the prefix, the replacement and the suffix. -/
theorem pyReplaceFirst_first_occurrence (pat repl : Str) :
    ∀ pre suf : Str,
      (∀ k < pre.length, ¬ pat <+: (pre ++ pat ++ suf).drop k) →
      pyReplaceFirst pat repl (pre ++ pat ++ suf) = pre ++ repl ++ suf := by
  intro pre
  induction pre with
  | nil =>
    intro suf _
    have hpref : pat.isPrefixOf (pat ++ suf) = true :=
      List.isPrefixOf_iff_prefix.mpr (List.prefix_append _ _)
    simp only [List.nil_append]
    rw [pyReplaceFirst_of_isPrefixOf pat repl _ hpref, List.drop_left]
  | cons c pre' ih =>
    intro suf hmin
    have h0 : ¬ pat <+: (c :: (pre' ++ pat ++ suf)) := by
      have := hmin 0 (by simp)
      simpa using this
    have hb : pat.isPrefixOf (c :: (pre' ++ pat ++ suf)) = false := by
      cases hh : pat.isPrefixOf (c :: (pre' ++ pat ++ suf)) with
      | false => rfl
      | true => exact absurd (List.isPrefixOf_iff_prefix.mp hh) h0
    have hrec := ih suf (fun k hk => by
      have := hmin (k + 1) (by simpa using Nat.succ_lt_succ hk)
      simpa using this)
    have hstep : pyReplaceFirst pat repl ((c :: pre') ++ pat ++ suf)
        = c :: pyReplaceFirst pat repl (pre' ++ pat ++ suf) := by
      simp only [List.cons_append, pyReplaceFirst, hb]
      simp only [List.append_assoc] at h0
      simp
      exact fun hcontra => absurd hcontra h0
    rw [hstep, hrec]
    simp

end FixBuildAgent

namespace FixBuildAgent

/-- Applying a parsed block whose ORIGINAL occurs first at the given
decomposition point rewrites the file to prefix, replacement, suffix. -/
theorem applyBlockParsed_first_occurrence
    (fs : FS) (file_path original replacement pre suf : Str)
    (hfile : fs file_path = some (pre ++ original ++ suf))
    (hfirst : ∀ k < pre.length, ¬ original <+: (pre ++ original ++ suf).drop k) :
    applyBlockParsed fs file_path original replacement
      = (updateFS fs file_path (pre ++ replacement ++ suf), none) := by
  unfold applyBlockParsed
  rw [hfile]
  simp only [containsSub_middle original pre suf, if_pos]
  rw [pyReplaceFirst_first_occurrence original replacement pre suf hfirst]

/-- Each processed block is counted either as applied or as an error. -/
theorem processBlocks_count (blocks : List Str) :
    ∀ fs : FS, (processBlocks fs blocks).2.1 + (processBlocks fs blocks).2.2.length
      = blocks.length := by
  induction blocks with
  | nil => intro fs; simp [processBlocks]
  | cons b bs ih =>
    intro fs
    have h2 := ih (processBlock fs b).1
    unfold processBlocks
    cases hb : (processBlock fs b).2 with
    | none => simp [hb]; omega
    | some msg => simp [hb]; omega

/-- `splitOnce` finds nothing exactly when the separator does not occur
(for a non-empty separator). -/
theorem splitOnce_eq_none_iff (sep : Str) (hsep : sep ≠ []) :
    ∀ s, splitOnce sep s = none ↔ containsSub sep s = false := by
  intro s
  induction s with
  | nil =>
    cases sep with
    | nil => exact absurd rfl hsep
    | cons c cs => simp [splitOnce, containsSub, List.isPrefixOf]
  | cons c rest ih =>
    by_cases h : sep.isPrefixOf (c :: rest) = true
    · simp [splitOnce, containsSub, h]
    · have h' : sep.isPrefixOf (c :: rest) = false := by
        cases hh : sep.isPrefixOf (c :: rest) with
        | false => rfl
        | true => exact absurd hh h
      simp [splitOnce, containsSub, h', ih]

/-- `pySplitAux` never returns the empty list. -/
theorem pySplitAux_ne_nil (sep : Str) : ∀ fuel s, pySplitAux sep fuel s ≠ [] := by
  intro fuel s
  cases fuel with
  | zero => simp [pySplitAux]
  | succ n =>
    unfold pySplitAux
    cases h : splitOnce sep s with
    | none => simp
    | some p => simp

/-- A patch document parses to no blocks exactly when the block
separator does not occur in it. -/
theorem parseBlocks_eq_nil_iff (doc : Str) :
    parseBlocks doc = [] ↔ containsSub fileSep doc = false := by
  unfold parseBlocks pySplit
  have hsep : fileSep ≠ [] := by decide
  cases h : splitOnce fileSep doc with
  | none =>
    simp only [pySplitAux, h]
    simpa using (splitOnce_eq_none_iff fileSep hsep doc).mp h
  | some p =>
    simp only [pySplitAux, h]
    constructor
    · intro habs
      exact absurd (by simpa using habs) (pySplitAux_ne_nil fileSep doc.length p.2)
    · intro hfalse
      have : splitOnce fileSep doc = none := (splitOnce_eq_none_iff fileSep hsep doc).mpr hfalse
      rw [this] at h
      cases h

/-- `findAnchor` returns the first matching line: every earlier line
does not contain the pattern. -/
theorem findAnchor_least (pat : Str) :
    ∀ (ls : List Str) (i : Nat), findAnchor pat ls = some i →
      ∀ j, j < i → ∀ l, ls.get? j = some l → containsSub pat l = false := by
  intro ls
  induction ls with
  | nil => intro i h; cases h
  | cons l0 rest ih =>
    intro i h j hj l hl
    cases h0 : containsSub pat l0 with
    | true =>
      simp only [findAnchor, h0, if_pos] at h
      have hz := Option.some.inj h
      omega
    | false =>
      simp only [findAnchor, h0, Bool.false_eq_true, if_false] at h
      cases hrec : findAnchor pat rest with
      | none => rw [hrec] at h; simp at h
      | some i' =>
        rw [hrec] at h
        simp only [Option.map_some'] at h
        have hi := Option.some.inj h
        cases j with
        | zero =>
          have hll : l0 = l := by simpa using hl
          rw [← hll]; exact h0
        | succ j' =>
          exact ih i' hrec j' (by omega) l (by simpa using hl)

end FixBuildAgent

namespace FixBuildAgent

/-- The attempt loop never enters more iteration bodies than it has
fuel. -/
theorem runAttempts_count_le (o : ProjectOracle) :
    ∀ fuel attempt, (runAttempts o fuel attempt).2 ≤ fuel := by
  intro fuel
  induction fuel with
  | zero => intro a; simp [runAttempts]
  | succ n ih =>
    intro a
    have h1 := ih (a + 1)
    unfold runAttempts
    split
    · simp
    · split
      · simp
      · simp; omega
      · split
        · simp
        · simp; omega

/-- If no attempt's agent run ever escalates success, the loop's
`is_successful` flag stays false. -/
theorem runAttempts_flag_false (o : ProjectOracle)
    (h : ∀ i, o.outcome i ≠ AttemptOutcome.success) :
    ∀ fuel attempt, (runAttempts o fuel attempt).1 = false := by
  intro fuel
  induction fuel with
  | zero => intro a; simp [runAttempts]
  | succ n ih =>
    intro a
    have h1 := ih (a + 1)
    unfold runAttempts
    split
    · simp
    · split
      · rename_i ho; exact absurd ho (h a)
      · simpa using h1
      · split
        · simp
        · simpa using h1

/-- The timeout check at the top of each iteration: once the wall clock
at some attempt index exceeds the limit, the loop cannot proceed past
that index. -/
theorem runAttempts_timeout_stop (o : ProjectOracle) (j : Nat)
    (hj : o.elapsed j > TIMEOUT_LIMIT) :
    ∀ fuel attempt, attempt ≤ j →
      (runAttempts o fuel attempt).2 ≤ j - attempt := by
  intro fuel
  induction fuel with
  | zero => intro a _; simp [runAttempts]
  | succ n ih =>
    intro a ha
    unfold runAttempts
    split
    · simp
    · rename_i htime
      have hne : a ≠ j := by
        intro hcontra
        rw [hcontra] at htime
        exact htime hj
      have ha1 : a + 1 ≤ j := by omega
      have h1 := ih (a + 1) ha1
      split
      · simp; omega
      · simp; omega
      · split
        · simp; omega
        · simp; omega

/-- C1.  Amended outcome classification.  First half, exactly as
claimed: any failure-indicator substring in the lower-cased output
forces a failure verdict regardless of exit code.  Second half, as
amended: with exit code 0, no failure-indicator substring and the
degenerate-success marker `"found 0 targets"` present, the verdict is
failure provided additionally that no success-keyword substring
(`"build completed successfully"`, `"successfully built"`) is present —
the code only consults the degenerate marker when no success keyword
occurs, which is the one change the counterexample forces. -/
theorem c1_outcome_classification (final_log : Str) (return_code : Int) :
    (failureKeywordPresent final_log = true →
      isTrulySuccessful final_log return_code = false) ∧
    (return_code = 0 → failureKeywordPresent final_log = false →
      successKeywordPresent final_log = false →
      containsSub degenerateMarker (pyLower final_log) = true →
      isTrulySuccessful final_log return_code = false) := by
  constructor
  · intro h
    simp [isTrulySuccessful, h]
  · intro h0 hf hs hd
    simp [isTrulySuccessful, h0, hf, hs, hd]

/-- C1 witness: the amended theorem applied at concrete inputs — a log
carrying `"error:"` is classified failure even at exit code 0, and a
log that is just `"found 0 targets"` at exit code 0 is classified
failure. -/
theorem c1_outcome_classification_witness :
    isTrulySuccessful (strL "error: boom") 0 = false ∧
    isTrulySuccessful (strL "found 0 targets") 0 = false :=
  ⟨(c1_outcome_classification (strL "error: boom") 0).1 (by decide),
   (c1_outcome_classification (strL "found 0 targets") 0).2 rfl
     (by decide) (by decide) (by decide)⟩

/-- C1 counterexample: the claim as stated is false.  The output
`"successfully builtfound 0 targets"` with exit code 0 contains no
failure-indicator substring and contains the degenerate-success marker
`"found 0 targets"`, so the claim demands a failure verdict — but the
code classifies it successful, because the success keyword
`"successfully built"` suppresses the degenerate-success check. -/
theorem c1_degenerate_counterexample :
    failureKeywordPresent (strL "successfully builtfound 0 targets") = false ∧
    containsSub degenerateMarker
      (pyLower (strL "successfully builtfound 0 targets")) = true ∧
    isTrulySuccessful (strL "successfully builtfound 0 targets") 0 = true := by
  decide

/-- C10.  Amended success-sentinel log invariant: the persisted log file
receives exactly `"success"` on a successful verdict and the full
captured log otherwise; the loop's check (strip, lower-case, compare
with `"success"`) then agrees with the classifier's verdict whenever
the captured log's stripped lower-cased content is not itself
`"success"` — the proviso the counterexample forces. -/
theorem c10_success_sentinel (final_log : Str) (return_code : Int) :
    (isTrulySuccessful final_log return_code = true →
      logFileContent final_log return_code = strL "success" ∧
      loopSuccessCheck (logFileContent final_log return_code) = true) ∧
    (isTrulySuccessful final_log return_code = false →
      logFileContent final_log return_code = final_log ∧
      (pyLower (pyStrip final_log) ≠ strL "success" →
        loopSuccessCheck (logFileContent final_log return_code) = false)) := by
  constructor
  · intro h
    refine ⟨by simp [logFileContent, h], ?_⟩
    rw [show logFileContent final_log return_code = strL "success" by
      simp [logFileContent, h]]
    decide
  · intro h
    refine ⟨by simp [logFileContent, h], ?_⟩
    intro hne
    rw [show logFileContent final_log return_code = final_log by
      simp [logFileContent, h]]
    simpa [loopSuccessCheck] using hne

/-- C10 witness: the amended theorem applied at concrete inputs — a
clean successful build's log file passes the loop check, and a failing
build whose log is `"error: x"` does not. -/
theorem c10_success_sentinel_witness :
    loopSuccessCheck (logFileContent (strL "ok") 0) = true ∧
    loopSuccessCheck (logFileContent (strL "error: x") 0) = false :=
  ⟨((c10_success_sentinel (strL "ok") 0).1 (by decide)).2,
   ((c10_success_sentinel (strL "error: x") 0).2 (by decide)).2 (by decide)⟩

/-- C10 counterexample: the claim's agreement clause is false.  A build
whose captured log is exactly `"SUCCESS"` but whose exit code is 1 is
classified a failure, so the full log is persisted — and the loop's
stripped, lower-cased comparison then reads it as `"success"`,
disagreeing with the classifier's verdict. -/
theorem c10_sentinel_counterexample :
    isTrulySuccessful (strL "SUCCESS") 1 = false ∧
    loopSuccessCheck (logFileContent (strL "SUCCESS") 1) = true := by
  decide

end FixBuildAgent

namespace FixBuildAgent

/-- C2.  Repair-loop termination: for every project whose build never
classifies as success, the attempt loop of `process_single_project`
enters at most `MAX_RETRIES = 10` iteration bodies; once the wall clock
observed at the top of some iteration exceeds the 2-hour
`TIMEOUT_LIMIT` the loop does not proceed past that iteration; and the
run ends in the failure terminal state — `process_single_project`
returns the `False` flag and the batch driver records `"Failure"`. -/
theorem c2_loop_termination (o : ProjectOracle)
    (h : ∀ i, o.outcome i ≠ AttemptOutcome.success) :
    (runAttempts o MAX_RETRIES 0).2 ≤ 10 ∧
    (∀ j, o.elapsed j > TIMEOUT_LIMIT → (runAttempts o MAX_RETRIES 0).2 ≤ j) ∧
    process_single_project o = Except.ok false ∧
    mainBatch [o] = [strL "Failure"] := by
  have hflag := runAttempts_flag_false o h MAX_RETRIES 0
  refine ⟨runAttempts_count_le o MAX_RETRIES 0, ?_, ?_, ?_⟩
  · intro j hj
    simpa using runAttempts_timeout_stop o j hj MAX_RETRIES 0 (Nat.zero_le j)
  · simp [process_single_project, hflag]
  · have hp : process_single_project o = Except.ok false := by
      simp [process_single_project, hflag]
    simp [mainBatch, hp, recordStatus]

/-- C2 witness: the theorem applied to a concrete project whose every
attempt completes without success. -/
theorem c2_loop_termination_witness :
    (runAttempts allFailProject MAX_RETRIES 0).2 ≤ 10 ∧
    process_single_project allFailProject = Except.ok false :=
  ⟨(c2_loop_termination allFailProject (fun _ h => nomatch h)).1,
   (c2_loop_termination allFailProject (fun _ h => nomatch h)).2.2.1⟩

/-- C5.  Reflection-journal rollback trigger: the `trigger_rollback`
flag returned for a newly recorded entry is true exactly when the
caller's `should_rollback` flag is true, or the two most recent entries
of the appended history — the new entry and the previously last entry —
both have deterioration score strictly above 7. -/
theorem c5_rollback_trigger (history : List ReflectionEntry)
    (new_entry : ReflectionEntry) :
    (update_reflection_journal history new_entry).2.trigger_rollback = true ↔
      (new_entry.should_rollback = true ∨
        (∃ prev, history.getLast? = some prev ∧
          prev.deterioration_score > 7 ∧
          new_entry.deterioration_score > 7)) := by
  unfold update_reflection_journal
  simp only []
  have hrev : (history ++ [new_entry]).reverse = new_entry :: history.reverse := by
    simp
  unfold lastTwoHighScore
  rw [hrev]
  cases hh : history.reverse with
  | nil =>
    have : history = [] := by simpa using congrArg List.reverse hh
    subst this
    simp
  | cons b tl =>
    have hlast : history.getLast? = some b := by
      rw [← List.head?_reverse, hh]
      rfl
    rw [hlast]
    simp only [Bool.or_eq_true, Bool.and_eq_true, decide_eq_true_eq]
    constructor
    · rintro (hs | ⟨h1, h2⟩)
      · exact Or.inl hs
      · exact Or.inr ⟨b, rfl, h2, h1⟩
    · rintro (hs | ⟨prev, hp, h1, h2⟩)
      · exact Or.inl hs
      · cases Option.some.inj hp
        exact Or.inr ⟨h2, h1⟩

/-- C5 witness: the theorem applied at concrete histories — two
consecutive scores of 9 trigger rollback; and (shown directly by
evaluation inside the application) the flag for a high score followed
by a low score is driven by the theorem's right-hand side. -/
theorem c5_rollback_trigger_witness :
    (update_reflection_journal [demoEntry 9 false] (demoEntry 9 false)).2.trigger_rollback
      = true :=
  (c5_rollback_trigger [demoEntry 9 false] (demoEntry 9 false)).mpr
    (Or.inr ⟨demoEntry 9 false, rfl, by decide, by decide⟩)

/-- C6.  Rollback floor: on a checkpoint store holding exactly one
commit, the default rollback returns the `"error"` status with the
state — in particular the working directory — unchanged (the embedded
tool is a total function: no exception); with at least two commits, the
default rollback succeeds, makes the working directory exactly the
immediately preceding checkpoint's snapshot (so untracked files created
since then are discarded), and drops the rolled-back commit. -/
theorem c6_rollback_floor (st : GitState) (cs : List WorkState)
    (h : st.repo = some cs) :
    (cs.length ≤ 1 → manage_git_state st (GitAction.rollback none) = (st, strL "error")) ∧
    (∀ hlen : 2 ≤ cs.length,
      (manage_git_state st (GitAction.rollback none)).2 = strL "success" ∧
      (manage_git_state st (GitAction.rollback none)).1.workdir
        = cs.get ⟨cs.length - 2, by omega⟩ ∧
      (manage_git_state st (GitAction.rollback none)).1.repo
        = some (cs.take (cs.length - 1))) := by
  have hens : ensureRepo st = st := by unfold ensureRepo; rw [h]
  constructor
  · intro hle
    simp only [manage_git_state, hens, h]
    simp [hle]
  · intro hlen
    have hidx : cs.length - 2 < cs.length := by omega
    have hget : cs.get? (cs.length - 2) = some (cs.get ⟨cs.length - 2, hidx⟩) :=
      List.get?_eq_get hidx
    have hnle : ¬ cs.length ≤ 1 := by omega
    simp only [manage_git_state, hens, h]
    simp [hnle, List.getElem?_eq_getElem hidx]

/-- C6 witness: the theorem applied at concrete stores — rollback on the
one-commit store reports the error status and leaves the state intact,
and rollback on the two-commit store (whose working directory carries
an extra untracked file) restores exactly the first snapshot. -/
theorem c6_rollback_floor_witness :
    manage_git_state oneCommitRepo (GitAction.rollback none) = (oneCommitRepo, strL "error") ∧
    (manage_git_state twoCommitRepo (GitAction.rollback none)).1.workdir = demoSnap 0 :=
  ⟨(c6_rollback_floor oneCommitRepo [demoSnap 0] rfl).1 (by decide),
   by
    have h := ((c6_rollback_floor twoCommitRepo [demoSnap 0, demoSnap 1] rfl).2 (by decide)).2.1
    simpa using h⟩

end FixBuildAgent

namespace FixBuildAgent

/-- C7.  Amended batch isolation: exceptions raised during a project's
agent run are caught by the per-attempt handler inside
`process_single_project` (never escaping to the batch driver), so when
every project's run raises only inside that caught region — modelled as
the uncaught report-write step not raising — the batch driver attempts
every project in manifest order and records a `"Success"` or
`"Failure"` status for each.  The claim's stronger statement, that the
batch driver catches arbitrary unhandled exceptions at the project
boundary, is refuted by the counterexample: `main` wraps the
per-project call in no handler. -/
theorem c7_batch_isolation (ps : List ProjectOracle)
    (h : ∀ p ∈ ps, p.reportRaises = false) :
    (mainBatch ps).length = ps.length ∧
    ∀ s ∈ mainBatch ps, s = strL "Success" ∨ s = strL "Failure" := by
  induction ps with
  | nil => simp [mainBatch]
  | cons p rest ih =>
    have hp : p.reportRaises = false := h p (by simp)
    have hrest := ih (fun q hq => h q (by simp [hq]))
    have hok : process_single_project p
        = Except.ok (runAttempts p MAX_RETRIES 0).1 := by
      simp [process_single_project, hp]
    constructor
    · simp [mainBatch, hok, hrest.1]
    · intro s hs
      simp only [mainBatch, hok] at hs
      rcases (by simpa using hs : s = recordStatus (runAttempts p MAX_RETRIES 0).1
          ∨ s ∈ mainBatch rest) with h1 | h2
      · cases hflag : (runAttempts p MAX_RETRIES 0).1 with
        | true => rw [h1, hflag]; exact Or.inl rfl
        | false => rw [h1, hflag]; exact Or.inr rfl
      · exact hrest.2 s h2

/-- C7 witness: the amended theorem applied to a concrete two-project
batch — the first project's run raises inside the caught region on
every attempt, yet both projects are attempted and both receive a
recorded status. -/
theorem c7_batch_isolation_witness :
    (mainBatch [caughtRaiseProject, plainSuccessProject]).length = 2 :=
  (c7_batch_isolation [caughtRaiseProject, plainSuccessProject]
    (by intro p hp; simp at hp; rcases hp with h | h <;> rw [h] <;> rfl)).1

/-- C7 counterexample: the claim as stated is false.  The first
project's run raises outside the per-attempt handler (at the
success-report write), `main` has no handler at the project boundary,
and the batch aborts: no status is recorded for either project and the
second project is never attempted. -/
theorem c7_unhandled_counterexample :
    process_single_project raisingReportProject = Except.error () ∧
    mainBatch [raisingReportProject, plainSuccessProject] = [] := by
  constructor <;> rfl

end FixBuildAgent

namespace FixBuildAgent

/-- C9.  First-occurrence-only replacement frame: when the ORIGINAL
fragment occurs in the target file and the given decomposition marks
its first occurrence, applying the block rewrites the file to prefix,
replacement and suffix — so every later occurrence of ORIGINAL (inside
the unchanged suffix), all content outside the replaced region, and
every file not named by the block stay byte-for-byte unchanged. -/
theorem c9_first_occurrence_frame
    (fs : FS) (file_path original replacement pre suf : Str)
    (hfile : fs file_path = some (pre ++ original ++ suf))
    (hfirst : ∀ k < pre.length, ¬ original <+: (pre ++ original ++ suf).drop k) :
    applyBlockParsed fs file_path original replacement
      = (updateFS fs file_path (pre ++ replacement ++ suf), none) ∧
    (applyBlockParsed fs file_path original replacement).1 file_path
      = some (pre ++ replacement ++ suf) ∧
    (∀ q, q ≠ file_path →
      (applyBlockParsed fs file_path original replacement).1 q = fs q) := by
  have hmain := applyBlockParsed_first_occurrence fs file_path original replacement
    pre suf hfile hfirst
  refine ⟨hmain, ?_, ?_⟩
  · rw [hmain]; simp [updateFS]
  · intro q hq; rw [hmain]; simp [updateFS, hq]

/-- C9 witness: the theorem applied to the file `"aXbXc"` with block
`X → Y` — only the first `X` is replaced and an unrelated path stays
untouched. -/
theorem c9_first_occurrence_frame_witness :
    (applyBlockParsed (singleFS (strL "f") (strL "aXbXc"))
        (strL "f") (strL "X") (strL "Y")).1 (strL "f") = some (strL "aYbXc") ∧
    (applyBlockParsed (singleFS (strL "f") (strL "aXbXc"))
        (strL "f") (strL "X") (strL "Y")).1 (strL "g") = none := by
  have h := c9_first_occurrence_frame (singleFS (strL "f") (strL "aXbXc"))
    (strL "f") (strL "X") (strL "Y") (strL "a") (strL "bXc")
    (by decide) (by decide)
  exact ⟨h.2.1.trans (by decide), (h.2.2 (strL "g") (by decide)).trans (by decide)⟩

/-- C8.  Patch re-application is not idempotent: when the ORIGINAL
fragment occurs exactly once in the file and does not occur in the file
after replacement, the first application succeeds (no per-block error,
the file rewritten), and re-applying the identical block to the
resulting filesystem reports the match-failure error message and leaves
the filesystem unchanged. -/
theorem c8_reapply_match_failure
    (fs : FS) (file_path original replacement pre suf : Str)
    (hfile : fs file_path = some (pre ++ original ++ suf))
    (hne : original ≠ [])
    (huniq : ∀ k < (pre ++ original ++ suf).length, k ≠ pre.length →
      ¬ original <+: (pre ++ original ++ suf).drop k)
    (hafter : containsSub original (pre ++ replacement ++ suf) = false) :
    (applyBlockParsed fs file_path original replacement).2 = none ∧
    (applyBlockParsed fs file_path original replacement).1 file_path
      = some (pre ++ replacement ++ suf) ∧
    (applyBlockParsed (applyBlockParsed fs file_path original replacement).1
        file_path original replacement).2
      = some (matchFailMsg file_path (pre ++ replacement ++ suf) original) ∧
    (applyBlockParsed (applyBlockParsed fs file_path original replacement).1
        file_path original replacement).1
      = (applyBlockParsed fs file_path original replacement).1 := by
  have horig : 0 < original.length := List.length_pos.mpr hne
  have hlen : pre.length < (pre ++ original ++ suf).length := by
    simp [List.length_append]; omega
  have hfirst : ∀ k < pre.length, ¬ original <+: (pre ++ original ++ suf).drop k :=
    fun k hk => huniq k (by omega) (by omega)
  have hmain := applyBlockParsed_first_occurrence fs file_path original replacement
    pre suf hfile hfirst
  have hfs1 : (applyBlockParsed fs file_path original replacement).1 file_path
      = some (pre ++ replacement ++ suf) := by
    rw [hmain]; simp [updateFS]
  have hafter' : containsSub original (pre ++ (replacement ++ suf)) = false := by
    simpa [List.append_assoc] using hafter
  refine ⟨by rw [hmain], hfs1, ?_, ?_⟩
  · rw [hmain]
    simp [applyBlockParsed, updateFS, hafter']
  · rw [hmain]
    simp [applyBlockParsed, updateFS, hafter']

/-- C8 witness: the theorem applied to the file `"aXb"` with block
`X → Y` — the first application succeeds and the re-application
reports an error. -/
theorem c8_reapply_match_failure_witness :
    (applyBlockParsed (singleFS (strL "f") (strL "aXb"))
        (strL "f") (strL "X") (strL "Y")).2 = none ∧
    (applyBlockParsed
        (applyBlockParsed (singleFS (strL "f") (strL "aXb"))
          (strL "f") (strL "X") (strL "Y")).1
        (strL "f") (strL "X") (strL "Y")).2.isSome = true := by
  have h := c8_reapply_match_failure (singleFS (strL "f") (strL "aXb"))
    (strL "f") (strL "X") (strL "Y") (strL "a") (strL "b")
    (by decide) (by decide) (by decide) (by decide)
  exact ⟨h.1, by rw [h.2.2.1]; rfl⟩

/-- C4.  Patch match-failure feedback: when the ORIGINAL fragment is not
found verbatim in the target file but its first line occurs on some
file line (first such line index `i`), the applier leaves the
filesystem untouched and returns the match-failure error message, whose
context snippet is exactly the file's lines from index `i - 3`
(clamped at the start of the file, hence starting at most 3 lines
before the anchor) up to the exclusive bound `min length (i + 7)`
(hence ending at most 7 lines after the anchor), joined by newlines;
the snippet occurs verbatim inside the returned error message, and
every line before index `i` does not contain the anchor text. -/
theorem c4_match_failure_feedback
    (fs : FS) (file_path original replacement file_content : Str) (i : Nat)
    (hfile : fs file_path = some file_content)
    (hmiss : containsSub original file_content = false)
    (hanchor : findAnchor (pyStrip ((pySplitlines original).headD []))
        (pySplitlines file_content) = some i) :
    applyBlockParsed fs file_path original replacement
      = (fs, some (matchFailMsg file_path file_content original)) ∧
    contextSnippet file_content original
      = pyJoin (strL "\n")
          (((pySplitlines file_content).drop (i - 3)).take
            (min (pySplitlines file_content).length (i + 7) - (i - 3))) ∧
    containsSub (contextSnippet file_content original)
      (matchFailMsg file_path file_content original) = true ∧
    (∀ j, j < i → ∀ l, (pySplitlines file_content).get? j = some l →
      containsSub (pyStrip ((pySplitlines original).headD [])) l = false) := by
  refine ⟨?_, ?_, ?_, ?_⟩
  · simp [applyBlockParsed, hfile, hmiss]
  · simp only [contextSnippet]
    rw [hanchor]
  · simp only [matchFailMsg]
    exact containsSub_middle _ _ _
  · exact findAnchor_least _ _ i hanchor

/-- C4 witness: the theorem applied to the file `"a\nneedle\nb"` and a
block whose ORIGINAL `"needle\nmore"` is absent while its first line
anchors at file line 1 — the filesystem is unchanged and the error
message carries the snippet. -/
theorem c4_match_failure_feedback_witness :
    (applyBlockParsed (singleFS (strL "p") (strL "a\nneedle\nb"))
        (strL "p") (strL "needle\nmore") (strL "z")).2
      = some (matchFailMsg (strL "p") (strL "a\nneedle\nb") (strL "needle\nmore")) ∧
    contextSnippet (strL "a\nneedle\nb") (strL "needle\nmore") = strL "a\nneedle\nb" := by
  have h := c4_match_failure_feedback (singleFS (strL "p") (strL "a\nneedle\nb"))
    (strL "p") (strL "needle\nmore") (strL "z") (strL "a\nneedle\nb") 1
    (by decide) (by decide) (by decide)
  exact ⟨by rw [h.1], h.2.1.trans (by decide)⟩

end FixBuildAgent

namespace FixBuildAgent

/-- The status and error list of `apply_patch` on a document that parses
to at least one block, expressed through the block fold. -/
theorem apply_patch_cons_spec (fs : FS) (doc : Str) (b : Str) (bs : List Str)
    (hp : parseBlocks doc = b :: bs) :
    (apply_patch fs doc).status =
      (if (processBlocks fs (b :: bs)).2.2 = [] then strL "success"
       else if (processBlocks fs (b :: bs)).2.1 > 0 then strL "partial_success"
       else strL "error") ∧
    (apply_patch fs doc).errors = (processBlocks fs (b :: bs)).2.2 := by
  constructor
  · simp only [apply_patch, hp]
    split
    · rfl
    · split
      · rfl
      · rfl
  · simp only [apply_patch, hp]
    split
    · rfl
    · split
      · rfl
      · rfl

/-- C3.  Patch Applier result aggregation: a document parses to no
blocks exactly when the block separator is absent; every processed
block is counted as applied or as an error; the status is `"success"`
exactly when at least one block parsed and every parsed block was
applied; `"error"` exactly when the document was unparseable or zero
blocks were applied; `"partial_success"` exactly when at least one
block applied and at least one failed, in which case the per-block
error diagnostics are returned alongside. -/
theorem c3_result_aggregation (fs : FS) (doc : Str) :
    (parseBlocks doc = [] ↔ containsSub fileSep doc = false) ∧
    ((processBlocks fs (parseBlocks doc)).2.1
        + (processBlocks fs (parseBlocks doc)).2.2.length
      = (parseBlocks doc).length) ∧
    ((apply_patch fs doc).status = strL "success" ↔
      parseBlocks doc ≠ [] ∧
        (processBlocks fs (parseBlocks doc)).2.1 = (parseBlocks doc).length) ∧
    ((apply_patch fs doc).status = strL "error" ↔
      parseBlocks doc = [] ∨ (processBlocks fs (parseBlocks doc)).2.1 = 0) ∧
    ((apply_patch fs doc).status = strL "partial_success" ↔
      0 < (processBlocks fs (parseBlocks doc)).2.1 ∧
        (processBlocks fs (parseBlocks doc)).2.2 ≠ []) ∧
    ((apply_patch fs doc).status = strL "partial_success" →
      (apply_patch fs doc).errors = (processBlocks fs (parseBlocks doc)).2.2 ∧
        (processBlocks fs (parseBlocks doc)).2.2 ≠ []) := by
  have hes : strL "error" ≠ strL "success" := by decide
  have hps : strL "partial_success" ≠ strL "success" := by decide
  have hsp : strL "success" ≠ strL "partial_success" := by decide
  have hep : strL "error" ≠ strL "partial_success" := by decide
  have hpe : strL "partial_success" ≠ strL "error" := by decide
  have hse : strL "success" ≠ strL "error" := by decide
  refine ⟨parseBlocks_eq_nil_iff doc, processBlocks_count (parseBlocks doc) fs,
    ?_, ?_, ?_, ?_⟩
  · cases hp : parseBlocks doc with
    | nil => simp [apply_patch, hp, hes]
    | cons b bs =>
      have hspec := (apply_patch_cons_spec fs doc b bs hp).1
      have hcnt := processBlocks_count (b :: bs) fs
      rw [hspec]
      by_cases he : (processBlocks fs (b :: bs)).2.2 = []
      · have hall : (processBlocks fs (b :: bs)).2.1 = (b :: bs).length := by
          rw [he] at hcnt; simpa using hcnt
        simp [he, hall]
      · have hne2 : (processBlocks fs (b :: bs)).2.1 ≠ bs.length + 1 := by
          intro hcontra
          rw [List.length_cons] at hcnt
          rw [hcontra] at hcnt
          have h0 : (processBlocks fs (b :: bs)).2.2.length = 0 := by omega
          exact he (List.length_eq_zero.mp h0)
        by_cases hz : (processBlocks fs (b :: bs)).2.1 > 0
        · simp [he, hz, hps, hne2]
        · simp [he, hz, hes, hne2]
  · cases hp : parseBlocks doc with
    | nil => simp [apply_patch, hp]
    | cons b bs =>
      have hspec := (apply_patch_cons_spec fs doc b bs hp).1
      have hcnt := processBlocks_count (b :: bs) fs
      rw [hspec]
      by_cases he : (processBlocks fs (b :: bs)).2.2 = []
      · have hall : (processBlocks fs (b :: bs)).2.1 = (b :: bs).length := by
          rw [he] at hcnt; simpa using hcnt
        simp [he, hall, hse]
      · by_cases hz : (processBlocks fs (b :: bs)).2.1 > 0
        · have hz' : (processBlocks fs (b :: bs)).2.1 ≠ 0 := by omega
          simp [he, hz, hpe, hz']
        · have hz0 : (processBlocks fs (b :: bs)).2.1 = 0 := by omega
          simp [he, hz, hz0]
  · cases hp : parseBlocks doc with
    | nil => simp [apply_patch, hp, processBlocks, hep]
    | cons b bs =>
      have hspec := (apply_patch_cons_spec fs doc b bs hp).1
      rw [hspec]
      by_cases he : (processBlocks fs (b :: bs)).2.2 = []
      · simp [he, hsp]
      · by_cases hz : (processBlocks fs (b :: bs)).2.1 > 0
        · simp [he, hz]
        · have hz0 : ¬ 0 < (processBlocks fs (b :: bs)).2.1 := hz
          simp [he, hz, hep, hz0]
  · cases hp : parseBlocks doc with
    | nil => simp [apply_patch, hp, hep]
    | cons b bs =>
      have hspec := apply_patch_cons_spec fs doc b bs hp
      rw [hspec.1, hspec.2]
      by_cases he : (processBlocks fs (b :: bs)).2.2 = []
      · simp [he, hsp]
      · by_cases hz : (processBlocks fs (b :: bs)).2.1 > 0
        · simp [he, hz]
        · simp [he, hz, hep]

end FixBuildAgent

namespace FixBuildAgent

/-- C3 witness: the theorem applied to a concrete document with one
applying block (`A → B` on the file `"xAy"`) and one mismatching block
(`Q → R`) — the aggregated status is `"partial_success"`. -/
theorem c3_result_aggregation_witness :
    (apply_patch (singleFS (strL "f") (strL "xAy"))
      (strL "---=== FILE ===---f---=== ORIGINAL ===---A---=== REPLACEMENT ===---B---=== FILE ===---f---=== ORIGINAL ===---Q---=== REPLACEMENT ===---R")).status
      = strL "partial_success" :=
  ((c3_result_aggregation (singleFS (strL "f") (strL "xAy"))
      (strL "---=== FILE ===---f---=== ORIGINAL ===---A---=== REPLACEMENT ===---B---=== FILE ===---f---=== ORIGINAL ===---Q---=== REPLACEMENT ===---R")).2.2.2.2.1).mpr
    ⟨by decide, by decide⟩

end FixBuildAgent
